import Mathlib

/-
Verification of the e-commerce dashboard metrics pipeline
(src/lesson7_files/app.py) against its natural-language specification.

Numbers are modelled as rationals (ℚ): the Python code computes with
floats but every claim under study concerns exact arithmetic identities
(sums, means, percentage formulas, threshold comparisons), none of which
hinge on binary-float rounding.  Nullable columns of the pandas fact
table (`product_category_name`, `delivery_days`, `review_score`) are
modelled as `Option` fields; pandas aggregations that skip NaN become
aggregations over the `some` values, and a pandas aggregate that is NaN
because no value survived becomes `none`.
-/

namespace ECom

/-- One row of the denormalized sales-fact table (`current_data` in
`app.py`): one row per order item, carrying the joined attributes the
dashboard aggregates over.  `purchase_year`/`purchase_month` model the
calendar month of `order_purchase_timestamp` (what `dt.to_period` of a
month extracts). -/
structure FactRow where
  order_id : Nat
  price : ℚ
  product_category_name : Option String
  customer_state : Option String
  delivery_days : Option ℚ
  review_score : Option ℚ
  purchase_year : Nat
  purchase_month : Nat
deriving DecidableEq, Repr

/-- `calculate_trend_percentage` from app.py lines 113-117:
percentage change between two values, 0 when the previous value is 0. -/
def calculate_trend_percentage (current_value previous_value : ℚ) : ℚ :=
  if previous_value = 0 then 0
  else ((current_value - previous_value) / previous_value) * 100

/-- `current_revenue = current_data['price'].sum()` (app.py line 194). -/
def revenue (rows : List FactRow) : ℚ :=
  (rows.map (fun r => r.price)).sum

/-- `current_orders = current_data['order_id'].nunique()` (app.py line 195):
number of distinct order ids. -/
def order_count (rows : List FactRow) : Nat :=
  ((rows.map (fun r => r.order_id)).dedup).length

/-- `current_aov = current_revenue / current_orders if current_orders > 0
else 0` (app.py line 196). -/
def average_order_value (rows : List FactRow) : ℚ :=
  if order_count rows > 0 then revenue rows / (order_count rows : ℚ) else 0

/-- Mean of a list of rationals, `none` when the list is empty.  This is
how a pandas `.mean()` over the non-null values behaves: NaN (here
`none`) when nothing survives the null-skip. -/
def meanOpt (xs : List ℚ) : Option ℚ :=
  if xs = [] then none else some (xs.sum / (xs.length : ℚ))

/-- `current_delivery = current_data['delivery_days'].mean()` (app.py
line 414): pandas mean skips NaN, so this is the mean of the non-null
`delivery_days` values, `none` (NaN) when no row has one. -/
def average_delivery_days (rows : List FactRow) : Option ℚ :=
  meanOpt (rows.filterMap (fun r => r.delivery_days))

/-- Scenario A fact rows of the spec:
`[(price=10, category=A), (price=20, category=B), (price=30, category=A)]`. -/
def scenarioA : List FactRow :=
  [ { order_id := 1, price := 10, product_category_name := some "A",
      customer_state := none, delivery_days := none, review_score := none,
      purchase_year := 2023, purchase_month := 1 },
    { order_id := 2, price := 20, product_category_name := some "B",
      customer_state := none, delivery_days := none, review_score := none,
      purchase_year := 2023, purchase_month := 1 },
    { order_id := 3, price := 30, product_category_name := some "A",
      customer_state := none, delivery_days := none, review_score := none,
      purchase_year := 2023, purchase_month := 1 } ]

/-- Scenario B fact rows of the spec: `delivery_days = [1, 5, 10, null]`. -/
def scenarioB : List FactRow :=
  [ { order_id := 1, price := 0, product_category_name := none,
      customer_state := none, delivery_days := some 1, review_score := none,
      purchase_year := 2023, purchase_month := 1 },
    { order_id := 2, price := 0, product_category_name := none,
      customer_state := none, delivery_days := some 5, review_score := none,
      purchase_year := 2023, purchase_month := 1 },
    { order_id := 3, price := 0, product_category_name := none,
      customer_state := none, delivery_days := some 10, review_score := none,
      purchase_year := 2023, purchase_month := 1 },
    { order_id := 4, price := 0, product_category_name := none,
      customer_state := none, delivery_days := none, review_score := none,
      purchase_year := 2023, purchase_month := 1 } ]

/-- Claim C1: for every pair of numbers, `calculate_trend_percentage`
returns 0 when the previous value is 0 (regardless of the current one),
and otherwise `((current - previous) / previous) * 100`; in particular
`calculate_trend_percentage 150 100 = 50`.  Totality in Lean models
"never raises". -/
theorem c1_trend_percentage :
    (∀ c : ℚ, calculate_trend_percentage c 0 = 0) ∧
    (∀ c p : ℚ, p ≠ 0 →
      calculate_trend_percentage c p = ((c - p) / p) * 100) ∧
    calculate_trend_percentage 150 100 = 50 := by
  refine ⟨fun c => ?_, fun c p hp => ?_, ?_⟩
  · simp [calculate_trend_percentage]
  · simp [calculate_trend_percentage, hp]
  · norm_num [calculate_trend_percentage]

/-- Witness for C1 at the concrete input (150, 100). -/
theorem c1_trend_percentage_witness :
    (100 : ℚ) ≠ 0 ∧
    calculate_trend_percentage 150 100 = ((150 - 100) / 100) * 100 :=
  ⟨by norm_num, c1_trend_percentage.2.1 150 100 (by norm_num)⟩

/-- Claim C2: the average order value equals `revenue / order_count`
when there is at least one distinct order, and equals 0 (not an error)
when there are no orders. -/
theorem c2_average_order_value (rows : List FactRow) :
    (order_count rows > 0 →
      average_order_value rows = revenue rows / (order_count rows : ℚ)) ∧
    (order_count rows = 0 → average_order_value rows = 0) := by
  constructor
  · intro h
    simp [average_order_value, h]
  · intro h
    simp [average_order_value, h]

/-- Witness for C2: on Scenario A there are 3 distinct orders and the
average order value is 60 / 3 = 20; on the empty fact table it is 0. -/
theorem c2_average_order_value_witness :
    average_order_value scenarioA = revenue scenarioA / (order_count scenarioA : ℚ) ∧
    average_order_value ([] : List FactRow) = 0 :=
  ⟨(c2_average_order_value scenarioA).1 (by decide),
   (c2_average_order_value []).2 (by decide)⟩

/-- Claim C6: revenue is the sum of the price column, 0 on the empty
fact table, and 60 on Scenario A (prices 10, 20, 30). -/
theorem c6_revenue :
    (∀ rows : List FactRow, revenue rows = (rows.map (fun r => r.price)).sum) ∧
    revenue ([] : List FactRow) = 0 ∧
    revenue scenarioA = 60 := by
  refine ⟨fun rows => rfl, rfl, ?_⟩
  norm_num [revenue, scenarioA]

/-- Claim C9: the trend of an unchanged KPI is always 0: through the
guard branch when the value is 0, through the formula otherwise. -/
theorem c9_trend_of_unchanged (v : ℚ) : calculate_trend_percentage v v = 0 := by
  by_cases hv : v = 0
  · simp [calculate_trend_percentage, hv]
  · simp [calculate_trend_percentage, hv]

/-- Modelled from the spec: `categorize_delivery_speed` is imported by
app.py from `data_loader.py`, which is not among the sources; rules from
spec section 4.1: null maps to "Unknown", `d ≤ 3` to "1-3 days",
`3 < d ≤ 7` to "4-7 days", `d > 7` to "8+ days". -/
def categorize_delivery_speed : Option ℚ → String
  | none => "Unknown"
  | some d => if d ≤ 3 then "1-3 days" else if d ≤ 7 then "4-7 days" else "8+ days"

/-- The four delivery buckets in the fixed severity order used by the
dashboard (`bucket_order`, app.py line 374). -/
def bucket_order : List String := ["1-3 days", "4-7 days", "8+ days", "Unknown"]

/-- Ordinal severity of a delivery bucket, following `bucket_order`. -/
def bucket_severity : String → Nat
  | "1-3 days" => 0
  | "4-7 days" => 1
  | "8+ days" => 2
  | _ => 3

/-- Claim C3: the categorizer is total over numbers plus null: null maps
to "Unknown", `d ≤ 3` (negatives included) to "1-3 days", `3 < d ≤ 7` to
"4-7 days", `d > 7` to "8+ days"; every non-negative input lands in one
of the four buckets and bucket severity is monotone in the input. -/
theorem c3_categorize_delivery_speed :
    categorize_delivery_speed none = "Unknown" ∧
    (∀ d : ℚ, d ≤ 3 → categorize_delivery_speed (some d) = "1-3 days") ∧
    (∀ d : ℚ, 3 < d → d ≤ 7 → categorize_delivery_speed (some d) = "4-7 days") ∧
    (∀ d : ℚ, 7 < d → categorize_delivery_speed (some d) = "8+ days") ∧
    (∀ d : ℚ, 0 ≤ d → categorize_delivery_speed (some d) ∈ bucket_order) ∧
    (∀ d e : ℚ, 0 ≤ d → d ≤ e →
      bucket_severity (categorize_delivery_speed (some d)) ≤
        bucket_severity (categorize_delivery_speed (some e))) := by
  refine ⟨rfl, fun d hd => ?_, fun d hd3 hd7 => ?_, fun d hd => ?_, fun d _ => ?_,
    fun d e _ hde => ?_⟩
  · simp [categorize_delivery_speed, hd]
  · simp [categorize_delivery_speed, hd7, not_le.mpr hd3]
  · have h3 : ¬ d ≤ 3 := by linarith
    have h7 : ¬ d ≤ 7 := by linarith
    simp [categorize_delivery_speed, h3, h7]
  · by_cases h3 : d ≤ 3
    · simp [categorize_delivery_speed, h3, bucket_order]
    · by_cases h7 : d ≤ 7
      · simp [categorize_delivery_speed, h3, h7, bucket_order]
      · simp [categorize_delivery_speed, h3, h7, bucket_order]
  · by_cases hd3 : d ≤ 3
    · by_cases he3 : e ≤ 3
      · simp [categorize_delivery_speed, hd3, he3]
      · by_cases he7 : e ≤ 7 <;>
          simp [categorize_delivery_speed, hd3, he3, he7, bucket_severity]
    · have he3 : ¬ e ≤ 3 := fun h => hd3 (le_trans hde h)
      by_cases hd7 : d ≤ 7
      · by_cases he7 : e ≤ 7 <;>
          simp [categorize_delivery_speed, hd3, he3, hd7, he7, bucket_severity]
      · have he7 : ¬ e ≤ 7 := fun h => hd7 (le_trans hde h)
        simp [categorize_delivery_speed, hd3, he3, hd7, he7, bucket_severity]

/-- Witness for C3 at concrete inputs: 2 days, 5 days, 9 days, and the
monotonicity instance 2 ≤ 9. -/
theorem c3_categorize_delivery_speed_witness :
    categorize_delivery_speed (some 2) = "1-3 days" ∧
    categorize_delivery_speed (some 5) = "4-7 days" ∧
    categorize_delivery_speed (some 9) = "8+ days" ∧
    categorize_delivery_speed (some 2) ∈ bucket_order ∧
    bucket_severity (categorize_delivery_speed (some 2)) ≤
      bucket_severity (categorize_delivery_speed (some 9)) :=
  ⟨c3_categorize_delivery_speed.2.1 2 (by norm_num),
   c3_categorize_delivery_speed.2.2.1 5 (by norm_num) (by norm_num),
   c3_categorize_delivery_speed.2.2.2.1 9 (by norm_num),
   c3_categorize_delivery_speed.2.2.2.2.1 2 (by norm_num),
   c3_categorize_delivery_speed.2.2.2.2.2 2 9 (by norm_num) (by norm_num)⟩

/-- Claim C7: the average delivery time is the mean of the non-null
`delivery_days` values — on Scenario B (`[1, 5, 10, null]`) the mean of
`[1, 5, 10]`, that is 16/3 — and is undefined (`none`, pandas NaN), not
zero, when no row has a non-null value. -/
theorem c7_average_delivery_days :
    (∀ rows : List FactRow,
      rows.filterMap (fun r => r.delivery_days) = [] →
        average_delivery_days rows = none) ∧
    (∀ rows : List FactRow,
      rows.filterMap (fun r => r.delivery_days) ≠ [] →
        average_delivery_days rows =
          some ((rows.filterMap (fun r => r.delivery_days)).sum /
            ((rows.filterMap (fun r => r.delivery_days)).length : ℚ))) ∧
    average_delivery_days scenarioB = some (16 / 3) := by
  refine ⟨fun rows h => ?_, fun rows h => ?_, ?_⟩
  · simp [average_delivery_days, meanOpt, h]
  · simp [average_delivery_days, meanOpt, h]
  · show meanOpt [1, 5, 10] = some (16 / 3)
    have h : ([1, 5, 10] : List ℚ) ≠ [] := by simp
    simp [meanOpt, h]
    norm_num

/-- Witness for C7: Scenario B has non-null values and averages to 16/3;
the empty fact table yields `none`. -/
theorem c7_average_delivery_days_witness :
    average_delivery_days ([] : List FactRow) = none ∧
    average_delivery_days scenarioB =
      some ((scenarioB.filterMap (fun r => r.delivery_days)).sum /
        ((scenarioB.filterMap (fun r => r.delivery_days)).length : ℚ)) :=
  ⟨c7_average_delivery_days.1 [] (by decide),
   c7_average_delivery_days.2.1 scenarioB (by decide)⟩

/-- Floor of a rational as an integer, computed by Euclidean division of
the numerator by the (positive) denominator. -/
def ratFloor (q : ℚ) : ℤ := Int.ediv q.num (q.den : ℤ)

/-- Round-half-to-even on rationals, the rounding Python string
formatting applies when printing with a fixed number of decimals. -/
def halfEven (q : ℚ) : ℤ :=
  if q - (ratFloor q : ℚ) < 1 / 2 then ratFloor q
  else if (1 : ℚ) / 2 < q - (ratFloor q : ℚ) then ratFloor q + 1
  else if ratFloor q % 2 = 0 then ratFloor q else ratFloor q + 1

/-- The displayed form a currency value is rendered to by
`format_currency`: millions to one decimal with an "M" suffix (payload in
tenths of a million), thousands to a whole number with a "K" suffix, and
otherwise a whole dollar amount with no suffix. -/
inductive Currency where
  | mega (tenths : ℤ)
  | kilo (units : ℤ)
  | plain (units : ℤ)
deriving DecidableEq, Repr

/-- `format_currency` from app.py lines 104-111: value at least one
million prints as `value/1000000` to one decimal plus "M"; value at
least one thousand prints as `value/1000` rounded to a whole number plus
"K"; anything below one thousand prints as the value rounded to a whole
number with just the "$" sign. -/
def format_currency (v : ℚ) : Currency :=
  if 1000000 ≤ v then Currency.mega (halfEven (v / 1000000 * 10))
  else if 1000 ≤ v then Currency.kilo (halfEven (v / 1000))
  else Currency.plain (halfEven v)

/-- Claim C10: `format_currency` is total and partitions by the
magnitude thresholds checked in order: at or above one million the value
over one million to one decimal with an "M" suffix, between one thousand
(inclusive) and one million the value over one thousand rounded to a
whole number with a "K" suffix, and below one thousand — every negative
value included — the value rounded to a whole number with only the "$"
prefix; concretely 2500000 renders as 2.5M, 1500 as 2K (half-even), and
-5 as $-5. -/
theorem c10_format_currency :
    (∀ v : ℚ, 1000000 ≤ v →
      format_currency v = Currency.mega (halfEven (v / 1000000 * 10))) ∧
    (∀ v : ℚ, 1000 ≤ v → v < 1000000 →
      format_currency v = Currency.kilo (halfEven (v / 1000))) ∧
    (∀ v : ℚ, v < 1000 → format_currency v = Currency.plain (halfEven v)) ∧
    format_currency 2500000 = Currency.mega 25 ∧
    format_currency 1500 = Currency.kilo 2 ∧
    format_currency (-5) = Currency.plain (-5) := by
  refine ⟨fun v hv => ?_, fun v hv hv6 => ?_, fun v hv => ?_, ?_, ?_, ?_⟩
  · simp [format_currency, hv]
  · simp [format_currency, hv, not_le.mpr hv6]
  · have h6 : ¬ 1000000 ≤ v := by linarith
    have h3 : ¬ 1000 ≤ v := not_le.mpr hv
    simp [format_currency, h6, h3]
  · have h : ((2500000 : ℚ) / 1000000 * 10) = 25 := by norm_num
    have hf : ratFloor (25 : ℚ) = 25 := by
      have hn : (25 : ℚ).num = 25 := by norm_num
      have hd : (25 : ℚ).den = 1 := by norm_num
      rw [ratFloor, hn, hd]
      decide
    have hhe : halfEven (25 : ℚ) = 25 := by
      rw [halfEven, hf]
      norm_num
    rw [format_currency, if_pos (by norm_num : (1000000 : ℚ) ≤ 2500000), h, hhe]
  · have hf : ratFloor ((1500 : ℚ) / 1000) = 1 := by
      have hn : ((1500 : ℚ) / 1000).num = 3 := by norm_num
      have hd : ((1500 : ℚ) / 1000).den = 2 := by norm_num
      rw [ratFloor, hn, hd]
      decide
    have hhe : halfEven ((1500 : ℚ) / 1000) = 2 := by
      rw [halfEven, hf]
      norm_num
    rw [format_currency, if_neg (by norm_num : ¬ (1000000 : ℚ) ≤ 1500),
      if_pos (by norm_num : (1000 : ℚ) ≤ 1500), hhe]
  · have hf : ratFloor (-5 : ℚ) = -5 := by
      have hn : (-5 : ℚ).num = -5 := by norm_num
      have hd : (-5 : ℚ).den = 1 := by norm_num
      rw [ratFloor, hn, hd]
      decide
    have hhe : halfEven (-5 : ℚ) = -5 := by
      rw [halfEven, hf]
      norm_num
    rw [format_currency, if_neg (by norm_num : ¬ (1000000 : ℚ) ≤ -5),
      if_neg (by norm_num : ¬ (1000 : ℚ) ≤ -5), hhe]

/-- Non-null review scores of the rows falling into a given delivery
bucket: pandas `groupby('delivery_bucket')['review_score'].mean()` skips
NaN scores, so these are the values each bucket mean is taken over. -/
def bucketScores (rows : List FactRow) (b : String) : List ℚ :=
  (rows.filter (fun r => categorize_delivery_speed r.delivery_days = b)).filterMap
    (fun r => r.review_score)

/-- Whether some row falls into the given delivery bucket; pandas
`groupby` produces a group exactly for each key value present. -/
def bucketPresent (rows : List FactRow) (b : String) : Bool :=
  rows.any (fun r => categorize_delivery_speed r.delivery_days = b)

/-- `satisfaction_delivery` from app.py lines 366-380: group the fact
rows by `categorize_delivery_speed(delivery_days)`, take the mean of
`review_score` per group (NaN scores skipped; a group whose rows all
lack a score gets a NaN mean, here `none`), then order the groups by the
fixed `bucket_order`.  A bucket with no rows at all has no group and is
absent. -/
def satisfaction_by_delivery_bucket (rows : List FactRow) : List (String × Option ℚ) :=
  bucket_order.filterMap (fun b =>
    if bucketPresent rows b then some (b, meanOpt (bucketScores rows b)) else none)

/-- Membership in a guarded filterMap over keys: an entry appears
exactly for the keys of the list passing the guard, paired with their
computed value. -/
theorem mem_filterMap_guard {β : Type} (p : String → Bool) (g : String → β)
    (l : List String) (b : String) (v : β) :
    (b, v) ∈ l.filterMap (fun x => if p x then some (x, g x) else none) ↔
      b ∈ l ∧ p b = true ∧ v = g b := by
  simp only [List.mem_filterMap]
  constructor
  · rintro ⟨x, hx, hfx⟩
    by_cases hp : p x
    · rw [if_pos hp] at hfx
      rcases Option.some.inj hfx with h
      rcases Prod.mk.injEq _ _ _ _ ▸ h with ⟨hb, hv⟩
      subst hb
      exact ⟨hx, hp, hv.symm⟩
    · rw [if_neg hp] at hfx
      exact absurd hfx (Option.some_ne_none _).symm
  · rintro ⟨hb, hp, hv⟩
    exact ⟨b, hb, by rw [if_pos hp, hv]⟩

/-- The keys of a guarded filterMap over a key list form a sublist of
that key list (hence inherit its order). -/
theorem map_fst_filterMap_guard_sublist {β : Type} (p : String → Bool) (g : String → β)
    (l : List String) :
    List.Sublist ((l.filterMap (fun x => if p x then some (x, g x) else none)).map Prod.fst)
      l := by
  induction l with
  | nil => simp
  | cons x xs ih =>
    by_cases hp : p x
    · simpa [List.filterMap_cons, hp] using ih.cons₂ x
    · simpa [List.filterMap_cons, hp] using ih.cons x

/-- A single fact row in the fastest delivery bucket whose review score
is null. -/
def c4row : FactRow :=
  { order_id := 1, price := 0, product_category_name := none,
    customer_state := none, delivery_days := some 1, review_score := none,
    purchase_year := 2023, purchase_month := 1 }

/-- Counterexample to claim C4 as stated: on a single row with
`delivery_days = 1` and a null `review_score`, the bucket "1-3 days" has
no scored rows, yet the output does not omit it — it appears with an
undefined (NaN, here `none`) average. -/
theorem c4_satisfaction_counterexample :
    satisfaction_by_delivery_bucket [c4row] = [("1-3 days", none)] ∧
    bucketScores [c4row] "1-3 days" = [] := by
  constructor
  · decide
  · decide

/-- Claim C4 as amended: the output groups rows by
`categorize_delivery_speed(delivery_days)` and is ordered by the fixed
severity order; every entry belongs to a bucket some row falls into and
carries the mean of that bucket's non-null review scores, which is
undefined (`none`) — not omitted — when the bucket has rows but no
scored ones; and every bucket some row falls into does appear. -/
theorem c4_satisfaction_by_delivery_bucket (rows : List FactRow) :
    (∀ b v, (b, v) ∈ satisfaction_by_delivery_bucket rows →
      bucketPresent rows b = true ∧ v = meanOpt (bucketScores rows b)) ∧
    (∀ b, b ∈ bucket_order → bucketPresent rows b = true →
      (b, meanOpt (bucketScores rows b)) ∈ satisfaction_by_delivery_bucket rows) ∧
    List.Sublist ((satisfaction_by_delivery_bucket rows).map Prod.fst) bucket_order := by
  refine ⟨fun b v hbv => ?_, fun b hb hp => ?_, ?_⟩
  · rcases (mem_filterMap_guard (bucketPresent rows)
      (fun b => meanOpt (bucketScores rows b)) bucket_order b v).mp hbv with ⟨_, hp, hv⟩
    exact ⟨hp, hv⟩
  · exact (mem_filterMap_guard (bucketPresent rows)
      (fun b => meanOpt (bucketScores rows b)) bucket_order b _).mpr ⟨hb, hp, rfl⟩
  · exact map_fst_filterMap_guard_sublist (bucketPresent rows)
      (fun b => meanOpt (bucketScores rows b)) bucket_order

/-- Witness for the amended C4 on the concrete one-row table: its bucket
is present and appears in the output with the undefined average. -/
theorem c4_satisfaction_by_delivery_bucket_witness :
    (bucketPresent [c4row] "1-3 days" = true ∧
      meanOpt (bucketScores [c4row] "1-3 days") = none) ∧
    ("1-3 days", meanOpt (bucketScores [c4row] "1-3 days")) ∈
      satisfaction_by_delivery_bucket [c4row] :=
  ⟨⟨by decide, by decide⟩,
    (c4_satisfaction_by_delivery_bucket [c4row]).2.1 "1-3 days" (by decide) (by decide)⟩

/-- Witness for C10 at the concrete inputs 2500000, 1500 and -5, one per
branch. -/
theorem c10_format_currency_witness :
    format_currency 2500000 = Currency.mega (halfEven (2500000 / 1000000 * 10)) ∧
    format_currency 1500 = Currency.kilo (halfEven (1500 / 1000)) ∧
    format_currency (-5) = Currency.plain (halfEven (-5)) :=
  ⟨c10_format_currency.1 2500000 (by norm_num),
   c10_format_currency.2.1 1500 (by norm_num) (by norm_num),
   c10_format_currency.2.2.1 (-5) (by norm_num)⟩

/-- Revenue attributed to one product category: sum of `price` over the
rows carrying that (non-null) category. -/
def categoryRevenue (rows : List FactRow) (c : String) : ℚ :=
  ((rows.filter (fun r => r.product_category_name = some c)).map (fun r => r.price)).sum

/-- The distinct non-null categories among the fact rows: pandas
`groupby('product_category_name')` drops null keys and produces one
group per distinct category present. -/
def categoryKeys (rows : List FactRow) : List String :=
  (rows.filterMap (fun r => r.product_category_name)).dedup

/-- Insert a keyed value into a list sorted by non-increasing value. -/
def insertDesc (x : String × ℚ) : List (String × ℚ) → List (String × ℚ)
  | [] => [x]
  | y :: ys => if y.2 ≤ x.2 then x :: y :: ys else y :: insertDesc x ys

/-- Sort a keyed-value list by non-increasing value (insertion sort),
modelling pandas `sort_values(ascending=False)`. -/
def sortDesc : List (String × ℚ) → List (String × ℚ)
  | [] => []
  | x :: xs => insertDesc x (sortDesc xs)

/-- `category_revenue` from app.py line 305:
`groupby('product_category_name')['price'].sum()` (null categories
dropped), `.sort_values(ascending=False)`, `.head(top_n)`. -/
def category_ranking (rows : List FactRow) (top_n : Nat) : List (String × ℚ) :=
  (sortDesc ((categoryKeys rows).map (fun c => (c, categoryRevenue rows c)))).take top_n

/-- Membership after a descending insertion: the inserted element or one
of the old ones. -/
theorem mem_insertDesc (x : String × ℚ) (l : List (String × ℚ)) (a : String × ℚ) :
    a ∈ insertDesc x l ↔ a = x ∨ a ∈ l := by
  induction l with
  | nil => simp [insertDesc]
  | cons y ys ih =>
    rw [insertDesc]
    by_cases hc : y.2 ≤ x.2
    · rw [if_pos hc]
      simp [List.mem_cons]
    · rw [if_neg hc]
      simp only [List.mem_cons, ih]
      tauto

/-- Descending insertion preserves the non-increasing-value ordering. -/
theorem pairwise_insertDesc (x : String × ℚ) (l : List (String × ℚ))
    (h : List.Pairwise (fun a b : String × ℚ => b.2 ≤ a.2) l) :
    List.Pairwise (fun a b : String × ℚ => b.2 ≤ a.2) (insertDesc x l) := by
  induction l with
  | nil => simp [insertDesc]
  | cons y ys ih =>
    rcases List.pairwise_cons.mp h with ⟨hy, hys⟩
    rw [insertDesc]
    by_cases hc : y.2 ≤ x.2
    · rw [if_pos hc]
      refine List.pairwise_cons.mpr ⟨fun b hb => ?_, h⟩
      rcases List.mem_cons.mp hb with hb | hb
      · exact hb ▸ hc
      · exact le_trans (hy b hb) hc
    · rw [if_neg hc]
      refine List.pairwise_cons.mpr ⟨fun b hb => ?_, ih hys⟩
      rcases (mem_insertDesc x ys b).mp hb with hb | hb
      · exact hb ▸ le_of_not_le hc
      · exact hy b hb

/-- The descending insertion sort returns a permutation of its input as
far as membership is concerned. -/
theorem mem_sortDesc (l : List (String × ℚ)) (a : String × ℚ) :
    a ∈ sortDesc l ↔ a ∈ l := by
  induction l with
  | nil => simp [sortDesc]
  | cons x xs ih =>
    rw [sortDesc, mem_insertDesc]
    simp [ih]

/-- The descending insertion sort produces a non-increasing value
sequence. -/
theorem pairwise_sortDesc (l : List (String × ℚ)) :
    List.Pairwise (fun a b : String × ℚ => b.2 ≤ a.2) (sortDesc l) := by
  induction l with
  | nil => simp [sortDesc]
  | cons x xs ih => exact pairwise_insertDesc x (sortDesc xs) ih

/-- Claim C5: the category ranking is sorted by non-increasing summed
revenue, has length at most `top_n`, every entry comes from a row whose
category is that (non-null) category, and on Scenario A
`category_ranking 10 = [(A, 40), (B, 20)]`. -/
theorem c5_category_ranking :
    (∀ (rows : List FactRow) (top_n : Nat),
      List.Pairwise (fun a b : String × ℚ => b.2 ≤ a.2) (category_ranking rows top_n)) ∧
    (∀ (rows : List FactRow) (top_n : Nat),
      (category_ranking rows top_n).length ≤ top_n) ∧
    (∀ (rows : List FactRow) (top_n : Nat) (c : String) (v : ℚ),
      (c, v) ∈ category_ranking rows top_n →
        (∃ r ∈ rows, r.product_category_name = some c) ∧ v = categoryRevenue rows c) ∧
    category_ranking scenarioA 10 = [("A", 40), ("B", 20)] := by
  refine ⟨fun rows top_n => ?_, fun rows top_n => ?_, fun rows top_n c v hc => ?_, ?_⟩
  · exact List.Pairwise.sublist (List.take_sublist _ _) (pairwise_sortDesc _)
  · rw [category_ranking, List.length_take]
    exact Nat.min_le_left _ _
  · have h1 : (c, v) ∈ sortDesc ((categoryKeys rows).map
        (fun c => (c, categoryRevenue rows c))) :=
      List.Sublist.subset (List.take_sublist _ _) hc
    have h2 := (mem_sortDesc _ _).mp h1
    rcases List.mem_map.mp h2 with ⟨c0, hc0, hpair⟩
    have hcc : c0 = c := congrArg Prod.fst hpair
    subst hcc
    have hv : v = categoryRevenue rows c0 := (congrArg Prod.snd hpair).symm
    have h3 : c0 ∈ (rows.filterMap (fun r => r.product_category_name)) :=
      List.mem_dedup.mp hc0
    rcases List.mem_filterMap.mp h3 with ⟨r, hr, hrc⟩
    exact ⟨⟨r, hr, hrc⟩, hv⟩
  · have hkeys : categoryKeys scenarioA = ["B", "A"] := by decide
    have hA : categoryRevenue scenarioA "A" = 40 := by
      rw [categoryRevenue]
      have hf : (scenarioA.filter (fun r => r.product_category_name = some "A")).map
          (fun r => r.price) = [10, 30] := by decide
      rw [hf]
      norm_num
    have hB : categoryRevenue scenarioA "B" = 20 := by
      rw [categoryRevenue]
      have hf : (scenarioA.filter (fun r => r.product_category_name = some "B")).map
          (fun r => r.price) = [20] := by decide
      rw [hf]
      norm_num
    rw [category_ranking, hkeys]
    simp only [List.map_cons, List.map_nil, hA, hB]
    decide

/-- Witness for C5 on Scenario A: the entry (A, 40) of the ranking comes
from a Scenario A row with category A. -/
theorem c5_category_ranking_witness :
    ("A", (40 : ℚ)) ∈ category_ranking scenarioA 10 ∧
    (∃ r ∈ scenarioA, r.product_category_name = some "A") ∧
      (40 : ℚ) = categoryRevenue scenarioA "A" := by
  have hmem : ("A", (40 : ℚ)) ∈ category_ranking scenarioA 10 := by
    rw [c5_category_ranking.2.2.2]
    exact List.mem_cons_self _ _
  exact ⟨hmem, c5_category_ranking.2.2.1 scenarioA 10 "A" 40 hmem⟩

/-- The calendar month of a row's purchase timestamp, as the absolute
month index `year * 12 + month` — the ordinal a pandas monthly period
carries, so chronological order of months is the numeric order of this
index. -/
def monthPeriod (r : FactRow) : Nat := r.purchase_year * 12 + r.purchase_month

/-- Revenue of one calendar month: sum of `price` over the rows whose
purchase falls in that month. -/
def monthRevenue (rows : List FactRow) (m : Nat) : ℚ :=
  ((rows.filter (fun r => monthPeriod r = m)).map (fun r => r.price)).sum

/-- Insert a month index into an ascending list. -/
def insertAsc (x : Nat) : List Nat → List Nat
  | [] => [x]
  | y :: ys => if x ≤ y then x :: y :: ys else y :: insertAsc x ys

/-- Ascending insertion sort on month indices, modelling the sorted
group keys a pandas `groupby` over periods returns. -/
def sortAsc : List Nat → List Nat
  | [] => []
  | x :: xs => insertAsc x (sortAsc xs)

/-- `current_monthly` from app.py lines 252-255:
`groupby(order_purchase_timestamp.dt.to_period('M'))['price'].sum()` —
one entry per distinct month present among the rows, keys in ascending
(chronological) order, each paired with that month's summed revenue. -/
def monthly_series (rows : List FactRow) : List (Nat × ℚ) :=
  (sortAsc ((rows.map monthPeriod).dedup)).map (fun m => (m, monthRevenue rows m))

/-- Membership after an ascending insertion: the inserted element or one
of the old ones. -/
theorem mem_insertAsc (x : Nat) (l : List Nat) (a : Nat) :
    a ∈ insertAsc x l ↔ a = x ∨ a ∈ l := by
  induction l with
  | nil => simp [insertAsc]
  | cons y ys ih =>
    rw [insertAsc]
    by_cases hc : x ≤ y
    · rw [if_pos hc]
      simp [List.mem_cons]
    · rw [if_neg hc]
      simp only [List.mem_cons, ih]
      tauto

/-- Ascending insertion preserves the non-decreasing ordering. -/
theorem pairwise_insertAsc (x : Nat) (l : List Nat)
    (h : List.Pairwise (fun a b : Nat => a ≤ b) l) :
    List.Pairwise (fun a b : Nat => a ≤ b) (insertAsc x l) := by
  induction l with
  | nil => simp [insertAsc]
  | cons y ys ih =>
    rcases List.pairwise_cons.mp h with ⟨hy, hys⟩
    rw [insertAsc]
    by_cases hc : x ≤ y
    · rw [if_pos hc]
      refine List.pairwise_cons.mpr ⟨fun b hb => ?_, h⟩
      rcases List.mem_cons.mp hb with hb | hb
      · exact hb ▸ hc
      · exact le_trans hc (hy b hb)
    · rw [if_neg hc]
      refine List.pairwise_cons.mpr ⟨fun b hb => ?_, ih hys⟩
      rcases (mem_insertAsc x ys b).mp hb with hb | hb
      · exact hb ▸ le_of_not_le hc
      · exact hy b hb

/-- The ascending insertion sort preserves membership. -/
theorem mem_sortAsc (l : List Nat) (a : Nat) : a ∈ sortAsc l ↔ a ∈ l := by
  induction l with
  | nil => simp [sortAsc]
  | cons x xs ih =>
    rw [sortAsc, mem_insertAsc]
    simp [ih]

/-- The ascending insertion sort produces a non-decreasing sequence. -/
theorem pairwise_sortAsc (l : List Nat) :
    List.Pairwise (fun a b : Nat => a ≤ b) (sortAsc l) := by
  induction l with
  | nil => simp [sortAsc]
  | cons x xs ih => exact pairwise_insertAsc x (sortAsc xs) ih

/-- Ascending insertion of a fresh element preserves distinctness. -/
theorem nodup_insertAsc (x : Nat) (l : List Nat) (hx : x ∉ l) (h : l.Nodup) :
    (insertAsc x l).Nodup := by
  induction l with
  | nil => simp [insertAsc]
  | cons y ys ih =>
    rcases List.nodup_cons.mp h with ⟨hy, hys⟩
    rw [insertAsc]
    by_cases hc : x ≤ y
    · rw [if_pos hc]
      exact List.nodup_cons.mpr ⟨hx, h⟩
    · rw [if_neg hc]
      refine List.nodup_cons.mpr ⟨fun hmem => ?_, ih (fun h0 => hx (List.mem_cons_of_mem y h0)) hys⟩
      rcases (mem_insertAsc x ys y).mp hmem with h0 | h0
      · exact hx (h0 ▸ List.mem_cons_self y ys)
      · exact hy h0

/-- The ascending insertion sort preserves distinctness. -/
theorem nodup_sortAsc (l : List Nat) (h : l.Nodup) : (sortAsc l).Nodup := by
  induction l with
  | nil => simp [sortAsc]
  | cons x xs ih =>
    rcases List.nodup_cons.mp h with ⟨hx, hxs⟩
    exact nodup_insertAsc x (sortAsc xs) (fun h0 => hx ((mem_sortAsc xs x).mp h0)) (ih hxs)

/-- Claim C8: the monthly series has strictly increasing (hence
chronologically ordered and duplicate-free) month keys; every entry is a
month some row falls in, carrying that month's summed revenue; and every
month with at least one row appears (months with no rows are simply the
ones absent). -/
theorem c8_monthly_series (rows : List FactRow) :
    List.Pairwise (fun a b : Nat × ℚ => a.1 < b.1) (monthly_series rows) ∧
    (∀ m v, (m, v) ∈ monthly_series rows →
      (∃ r ∈ rows, monthPeriod r = m) ∧ v = monthRevenue rows m) ∧
    (∀ m, (∃ r ∈ rows, monthPeriod r = m) →
      (m, monthRevenue rows m) ∈ monthly_series rows) := by
  have hle := pairwise_sortAsc ((rows.map monthPeriod).dedup)
  have hnd : (sortAsc ((rows.map monthPeriod).dedup)).Nodup :=
    nodup_sortAsc _ (List.nodup_dedup _)
  have hlt : List.Pairwise (fun a b : Nat => a < b)
      (sortAsc ((rows.map monthPeriod).dedup)) :=
    (hle.and hnd).imp (fun h => lt_of_le_of_ne h.1 h.2)
  refine ⟨?_, fun m v hmv => ?_, fun m hm => ?_⟩
  · rw [monthly_series, List.pairwise_map]
    exact hlt
  · rcases List.mem_map.mp hmv with ⟨m0, hm0, hpair⟩
    have hmm : m0 = m := congrArg Prod.fst hpair
    subst hmm
    have hv : v = monthRevenue rows m0 := (congrArg Prod.snd hpair).symm
    have h1 : m0 ∈ (rows.map monthPeriod).dedup := (mem_sortAsc _ _).mp hm0
    rcases List.mem_map.mp (List.mem_dedup.mp h1) with ⟨r, hr, hrm⟩
    exact ⟨⟨r, hr, hrm⟩, hv⟩
  · rcases hm with ⟨r, hr, hrm⟩
    rw [monthly_series]
    refine List.mem_map.mpr ⟨m, ?_, rfl⟩
    rw [mem_sortAsc, List.mem_dedup]
    exact List.mem_map.mpr ⟨r, hr, hrm⟩

/-- Witness for C8 on Scenario A, whose rows all fall in January 2023:
that month appears in the series with its revenue. -/
theorem c8_monthly_series_witness :
    (2023 * 12 + 1, monthRevenue scenarioA (2023 * 12 + 1)) ∈ monthly_series scenarioA :=
  (c8_monthly_series scenarioA).2.2 (2023 * 12 + 1)
    ⟨{ order_id := 1, price := 10, product_category_name := some "A",
       customer_state := none, delivery_days := none, review_score := none,
       purchase_year := 2023, purchase_month := 1 }, by decide, by decide⟩

end ECom
